import Mathlib

/-!
Verification of the a2a-maf-workflow repository (writer/reviewer agent services
plus an orchestration script).

The development shallowly embeds the Python code that the claims are about:

* `src/agents/reviewer/main.py` — `_parse_review_input`, `_review_draft`,
  `invoke`, `review_summary`;
* `src/agents/writer/main.py` — `_write_summary`;
* `src/agents/common/a2a_hosting.py` — `_TextA2ARequestHandler` and its
  helpers `_env_str`, `_message_text`;
* `src/agents/workflow.py` — `_normalize_card_url`.

Python strings are modelled as `List Char`.  The Python string operations the
code uses (`str.strip`, `str.lower`, `str.find`, `str.splitlines`,
`"\n".join`, slicing, truthiness `or`) are given explicit executable
definitions below.  `str.strip` and `str.splitlines` use CPython's
documented whitespace / line-boundary character sets; `str.lower` is
modelled stringwise, including the one code point (U+0130) whose CPython
lowercase mapping is longer than one character and therefore shifts the
indices `_parse_review_input` takes from the lowered copy — see
`pyLowerChar` for the argument that the model is exact wherever this code
can observe it.
-/

/-- Python strings, modelled as lists of characters. -/
abbrev Str := List Char

/-- Convert a Lean string literal to the `Str` model. -/
def strL (s : String) : Str := s.data

/-- CPython `str.isspace` character set (the characters `str.strip()` with no
argument removes): space, `\t`, `\n`, `\r`, `\v`, `\f`, the file/group/record/
unit separators, NEL, NBSP and the Unicode space/line/paragraph separators. -/
def pyIsSpace (c : Char) : Bool :=
  c.toNat ∈ [32, 9, 10, 13, 11, 12, 28, 29, 30, 31, 0x85, 0xA0, 0x1680,
    0x2000, 0x2001, 0x2002, 0x2003, 0x2004, 0x2005, 0x2006, 0x2007,
    0x2008, 0x2009, 0x200A, 0x2028, 0x2029, 0x202F, 0x205F, 0x3000]

/-- CPython `str.splitlines` line-boundary character set (`\r\n` is treated as
a single boundary by `pySplitlinesGo`). -/
def isLineBreak (c : Char) : Bool :=
  c.toNat ∈ [10, 13, 11, 12, 28, 29, 30, 0x85, 0x2028, 0x2029]

/-- Lowercasing of one character as CPython `str.lower` performs it, as a
string: U+0130 (LATIN CAPITAL LETTER I WITH DOT ABOVE) is the one code point
whose lowercase mapping is not a single character — it expands to U+0069
followed by U+0307 (SpecialCasing.txt) — and ASCII `A`–`Z` shift by 32.
Every other character is kept as itself rather than given its true Unicode
lowercase; this is exact wherever the embedded code can observe it, because
(a) U+0130 is CPython's only length-changing lowercase mapping, so the
modelled and the real lowered string always have the same length with
characters at the same positions, and (b) a position lowers to one of the
marker characters `t o p i c d r a f :` (or to the truthy-flag characters
`t r u e y s 1`) under CPython exactly when it does here: the only
non-ASCII-to-ASCII lowercase mappings are U+0130 (handled) and U+212A to
`k`, and `k` occurs in none of the searched strings.  (The final-sigma rule
is length-preserving and produces no such character either.) -/
def pyLowerChar (c : Char) : Str :=
  if c.toNat = 0x130 then [Char.ofNat 0x69, Char.ofNat 0x307]
  else if 65 ≤ c.toNat ∧ c.toNat ≤ 90 then [Char.ofNat (c.toNat + 32)]
  else [c]

/-- Python `str.lower`: concatenate each character's lowercase mapping
(U+0130 contributes two characters, so lowering can change indices). -/
def pyLower (l : Str) : Str := l.flatMap pyLowerChar

/-- Statement-side helper (not part of the embedded code): positionwise
ASCII case folding, used by the theorems to express the claims' phrase
"the case-insensitive substrings `topic:` / `draft:` occur in the input"
with indices that refer to the input itself. -/
def asciiFoldChar (c : Char) : Char :=
  if 65 ≤ c.toNat ∧ c.toNat ≤ 90 then Char.ofNat (c.toNat + 32) else c

/-- Positionwise ASCII case folding of a string (statement-side helper). -/
def asciiFold (l : Str) : Str := l.map asciiFoldChar

/-- Python `str.lstrip()` (no argument): drop leading whitespace. -/
def pyLStrip (l : Str) : Str := l.dropWhile pyIsSpace

/-- Python `str.rstrip()` (no argument): drop trailing whitespace. -/
def pyRStrip (l : Str) : Str := (l.reverse.dropWhile pyIsSpace).reverse

/-- Python `str.strip()` (no argument). -/
def pyStrip (l : Str) : Str := pyRStrip (pyLStrip l)

/-- Predicate `listStartsWith pat l` holds when `pat` occurs at the start of `l`. -/
def listStartsWith : Str → Str → Bool
  | [], _ => true
  | _ :: _, [] => false
  | p :: ps, h :: hs => p = h && listStartsWith ps hs

/-- Python `str.find`: index of the first occurrence of `pat` in `hay`
(`none` models Python's `-1`). -/
def pyFind (hay pat : Str) : Option Nat :=
  if listStartsWith pat hay then some 0
  else
    match hay with
    | [] => none
    | _ :: t => (pyFind t pat).map (· + 1)

/-- Python slice `l[a:b]` for `0 ≤ a, b` (as used with `str.find` results). -/
def pySlice (l : Str) (a b : Nat) : Str := List.take (b - a) (List.drop a l)

/-- Worker for `pySplitlines`: CPython's line splitting on a non-empty
string, treating `\r\n` as one boundary and keeping interior empty lines. -/
def pySplitlinesGo : Str → List Str
  | [] => [[]]
  | '\r' :: '\n' :: rest => [] :: (if rest = [] then [] else pySplitlinesGo rest)
  | c :: cs =>
    if isLineBreak c then
      [] :: (if cs = [] then [] else pySplitlinesGo cs)
    else
      match pySplitlinesGo cs with
      | [] => [[c]]
      | l :: ls => (c :: l) :: ls

/-- Python `str.splitlines()`. -/
def pySplitlines (l : Str) : List Str :=
  match l with
  | [] => []
  | _ => pySplitlinesGo l

/-- Python `"\n".join(lines)`. -/
def pyJoinNL : List Str → Str
  | [] => []
  | [l] => l
  | l :: ls => l ++ '\n' :: pyJoinNL ls

/-- Python string truthiness `a or b`: `b` when `a` is empty, else `a`. -/
def pyOrElse (a b : Str) : Str := if a = [] then b else a

/-- The literal `"topic:"`. -/
def topicTag : Str := ['t', 'o', 'p', 'i', 'c', ':']

/-- The literal `"draft:"`. -/
def draftTag : Str := ['d', 'r', 'a', 'f', 't', ':']

/-- First branch of `_parse_review_input` (reviewer `main.py`): if the
case-insensitive `"topic:"` occurs strictly before `"draft:"` in the stripped
text and both extracted fields are non-empty after stripping, produce them;
otherwise fall through (`none`). -/
def topicDraftSplit (raw : Str) : Option (Str × Str) :=
  match pyFind (pyLower raw) topicTag, pyFind (pyLower raw) draftTag with
  | some ti, some di =>
    if ti < di then
      let topic := pyStrip (pySlice raw (ti + 6) di)
      let draft := pyStrip (List.drop (di + 6) raw)
      if topic ≠ [] ∧ draft ≠ [] then some (topic, draft) else none
    else none
  | _, _ => none

/-- Function `_parse_review_input` from `src/agents/reviewer/main.py`: parse reviewer
input text into a `(topic, draft)` pair. -/
def parseReviewInput (text : Str) : Str × Str :=
  let raw := pyStrip text
  match topicDraftSplit raw with
  | some td => td
  | none =>
    let lines := pySplitlines raw
    if 2 ≤ lines.length then
      let topic := pyStrip (lines.headD [])
      let draft := pyStrip (pyJoinNL (lines.drop 1))
      (pyOrElse topic raw, pyOrElse draft raw)
    else (raw, raw)

/-- Spec-comparison variant of `parseReviewInput` whose multi-line branch
returns the stripped first line and stripped joined rest directly, with no
empty-after-trim fallback; used to show the fallback branch never fires. -/
def parseReviewInputNoFallback (text : Str) : Str × Str :=
  let raw := pyStrip text
  match topicDraftSplit raw with
  | some td => td
  | none =>
    let lines := pySplitlines raw
    if 2 ≤ lines.length then
      (pyStrip (lines.headD []), pyStrip (pyJoinNL (lines.drop 1)))
    else (raw, raw)

example : pyStrip (strL "  hi  ") = strL "hi" := by decide
example : pySplitlines (strL "a\r\nb\n\nc") = [strL "a", strL "b", [], strL "c"] := by decide
example : pyFind (strL "xxtopic:y") topicTag = some 2 := by decide
example :
    parseReviewInput (strL "Topic: Rust\n\nDraft: rust is a language") =
      (strL "Rust", strL "rust is a language") := by decide
example :
    parseReviewInput (strL "Climate change\nPolar bears are affected by melting ice.") =
      (strL "Climate change", strL "Polar bears are affected by melting ice.") := by decide
example : parseReviewInput (strL "hello world") = (strL "hello world", strL "hello world") := by
  decide
example : parseReviewInput (strL "a \nb") = (strL "a", strL "b") := by decide

/-!
Embedding of `src/agents/common/a2a_hosting.py` (`_TextA2ARequestHandler`,
`_env_str`, `_message_text`).  A2A messages carry a list of parts of which
only text parts are used; a handler either returns a value or raises
`ServerError(UnsupportedOperationError())`, modelled by `HandlerOutcome`.
The core responder (`respond`) is a parameter; its Python behaviour — return
a string or raise — is modelled as `Str → Str → Except PyExc Str`.
-/

/-- A2A message role (`a2a.types.Role`). -/
inductive Role where
  | user
  | agent
deriving DecidableEq

/-- One part of an A2A message: a text part, or any non-text modality
(ignored by `_message_text`). -/
inductive MsgPart where
  | text (s : Str)
  | nonText
deriving DecidableEq

/-- An A2A `Message` (the fields this code reads or writes). -/
structure A2AMessage where
  role : Role
  parts : List MsgPart
  messageId : Str
  contextId : Option Str
deriving DecidableEq

/-- Type `a2a.types.MessageSendParams` (the field this code reads). -/
structure MessageSendParams where
  message : A2AMessage
deriving DecidableEq

/-- A Python exception value: its type name and its string rendering. -/
structure PyExc where
  tyName : Str
  msg : Str
deriving DecidableEq

/-- Helper `_message_text`: concatenate the text parts, joined by newline, and
strip the result. -/
def messageText (m : A2AMessage) : Str :=
  pyStrip (pyJoinNL (m.parts.filterMap fun p =>
    match p with
    | .text t => some t
    | .nonText => none))

/-- Helper `_env_str`: a raw environment value (`none` when unset), falling back to
the default when unset or empty, else stripped. -/
def envStr (value : Option Str) (dflt : Str) : Str :=
  match value with
  | none => dflt
  | some v => if v = [] then dflt else pyStrip v

/-- The truthy spellings accepted for `A2A_INCLUDE_ERROR_DETAILS`. -/
def truthyValues : List Str := [strL "1", strL "true", strL "yes", strL "y"]

/-- The `include_error_details` computation in `on_message_send`:
`_env_str("A2A_INCLUDE_ERROR_DETAILS", "false").lower() in ("1", "true",
"yes", "y")`. -/
def includeErrorDetailsFlag (env : Option Str) : Bool :=
  pyLower (envStr env (strL "false")) ∈ truthyValues

/-- The detailed error reply text `f"Error: {type(exc).__name__}: {exc}"`. -/
def excErrorText (e : PyExc) : Str := strL "Error: " ++ e.tyName ++ strL ": " ++ e.msg

/-- The generic error reply text. -/
def genericErrorText : Str := strL "Error: internal server error"

/-- Python `incoming.context_id or _new_id()`: mint a fresh id when the
context id is absent or empty. -/
def pyOrNewId (ctx : Option Str) (fresh : Str) : Str :=
  match ctx with
  | none => fresh
  | some s => if s = [] then fresh else s

/-- Handler `_TextA2ARequestHandler.on_message_send`.  Here `respond` is the agent hook;
`env` is the raw `A2A_INCLUDE_ERROR_DETAILS` environment value;
`freshContextId` / `freshMessageId` are the values `_new_id()` would mint. -/
def onMessageSend (respond : Str → Str → Except PyExc Str) (env : Option Str)
    (freshContextId freshMessageId : Str) (params : MessageSendParams) : A2AMessage :=
  let contextId := pyOrNewId params.message.contextId freshContextId
  let userText := messageText params.message
  let includeDetails := includeErrorDetailsFlag env
  let responseText :=
    match respond userText contextId with
    | .ok t => t
    | .error e => if includeDetails then excErrorText e else genericErrorText
  { role := .agent
    parts := [.text responseText]
    messageId := freshMessageId
    contextId := some contextId }

/-- Handler `_TextA2ARequestHandler.on_message_send_stream`: the stream of yielded
messages, modelled as a list. -/
def onMessageSendStream (respond : Str → Str → Except PyExc Str) (env : Option Str)
    (freshContextId freshMessageId : Str) (params : MessageSendParams) : List A2AMessage :=
  [onMessageSend respond env freshContextId freshMessageId params]

/-- Result of calling one of the unsupported-surface handlers: either a
normal return value or a raised `ServerError(UnsupportedOperationError())`. -/
inductive HandlerOutcome (α : Type) where
  | returns (value : α)
  | unsupportedOperationError
deriving DecidableEq

/-- Type `a2a.types.TaskQueryParams` (id of the polled task). -/
structure TaskQueryParams where
  id : Str
deriving DecidableEq

/-- Type `a2a.types.TaskIdParams`. -/
structure TaskIdParams where
  id : Str
deriving DecidableEq

/-- An A2A `Task` (opaque here: the handlers never build one). -/
structure A2ATask where
  id : Str
deriving DecidableEq

/-- Type `a2a.types.TaskPushNotificationConfig` (opaque here). -/
structure TaskPushConfig where
  taskId : Str
deriving DecidableEq

/-- Handler `_TextA2ARequestHandler.on_get_task`: returns `None`. -/
def onGetTask (_params : TaskQueryParams) : HandlerOutcome (Option A2ATask) :=
  .returns none

/-- Handler `_TextA2ARequestHandler.on_cancel_task`: returns `None`. -/
def onCancelTask (_params : TaskIdParams) : HandlerOutcome (Option A2ATask) :=
  .returns none

/-- Handler `on_set_task_push_notification_config`: raises
`ServerError(UnsupportedOperationError())`. -/
def onSetTaskPushConfig (_params : TaskPushConfig) : HandlerOutcome TaskPushConfig :=
  .unsupportedOperationError

/-- Handler `on_get_task_push_notification_config`: raises
`ServerError(UnsupportedOperationError())`. -/
def onGetTaskPushConfig (_params : TaskPushConfig) : HandlerOutcome TaskPushConfig :=
  .unsupportedOperationError

/-- Handler `on_resubscribe_to_task`: raises
`ServerError(UnsupportedOperationError())` before yielding anything. -/
def onResubscribeToTask (_params : TaskIdParams) : HandlerOutcome (List A2AMessage) :=
  .unsupportedOperationError

/-- Handler `on_list_task_push_notification_config`: raises
`ServerError(UnsupportedOperationError())`. -/
def onListTaskPushConfig (_params : TaskIdParams) : HandlerOutcome (List TaskPushConfig) :=
  .unsupportedOperationError

/-- Handler `on_delete_task_push_notification_config`: raises
`ServerError(UnsupportedOperationError())`. -/
def onDeleteTaskPushConfig (_params : TaskIdParams) : HandlerOutcome Unit :=
  .unsupportedOperationError

/-!
Embedding of the core responders `_review_draft` (reviewer `main.py`) and
`_write_summary` (writer `main.py`), the typed `/invoke` endpoints, and the
MCP tool `review_summary`.  The hosted-model call
`asyncio.wait_for(_runtime.client.get_response(messages, ...), timeout)` is
an external effect; its outcome for the supplied prompt messages is modelled
by `ModelCallOutcome`: the response (whose `.text` may be `None`), a
`TimeoutError` from the elapsed bounded wait, or any other exception.
-/

/-- The process-wide runtime handle (`_runtime`), opaque here. -/
structure AgentRuntime where
  clientName : Str
deriving DecidableEq

/-- One prompt message handed to the model client. -/
structure ChatMsg where
  role : Str
  text : Str
deriving DecidableEq

/-- Outcome of the bounded-wait model call for given prompt messages. -/
inductive ModelCallOutcome where
  | ok (text : Option Str)
  | timedOut
  | failed (msg : Str)
deriving DecidableEq

/-- Type `fastapi.HTTPException` as raised by the responders. -/
structure HttpError where
  statusCode : Nat
  detail : Str
deriving DecidableEq

/-- Helper `chat_response_text` (`src/agents/common/text.py`): the response's text,
or the empty string when it is `None`. -/
def chatResponseText (t : Option Str) : Str := t.getD []

/-- Reviewer system prompt (verbatim from `_review_draft`). -/
def reviewerSystemPrompt : Str :=
  strL "You are a careful reviewer. Improve the draft summary for clarity, correctness, and concision. Fix grammar, remove redundancy, and keep it faithful to the topic. Return only the improved summary text; do not add commentary."

/-- Reviewer user prompt (verbatim from `_review_draft`). -/
def reviewerUserPrompt (topic draft : Str) : Str :=
  strL "Topic: " ++ topic ++ strL "\n\nDraft summary:\n" ++ draft ++
    strL "\n\nProduce the improved summary now."

/-- Writer system prompt (verbatim from `_write_summary`). -/
def writerSystemPrompt : Str :=
  strL "You are a helpful writer. Produce a short, factual summary of the given topic. Keep it concise (roughly 6-10 sentences). Avoid speculation; if unsure, say so."

/-- Writer user prompt (verbatim from `_write_summary`). -/
def writerUserPrompt (topic : Str) : Str :=
  strL "Topic: " ++ topic ++ strL "\n\nWrite the summary now."

/-- Responder `_review_draft`: 503 before the runtime exists; otherwise call the model
with the two-message prompt and map timeout to 504, any other failure to 502
carrying the exception text, success to the stripped response text. -/
def reviewDraft (runtime : Option AgentRuntime) (call : List ChatMsg → ModelCallOutcome)
    (topic draft : Str) : Except HttpError Str :=
  match runtime with
  | none => .error ⟨503, strL "service not initialized"⟩
  | some _ =>
    let messages : List ChatMsg :=
      [⟨strL "system", reviewerSystemPrompt⟩, ⟨strL "user", reviewerUserPrompt topic draft⟩]
    match call messages with
    | .ok text => .ok (pyStrip (chatResponseText text))
    | .timedOut => .error ⟨504, strL "model call timed out"⟩
    | .failed msg => .error ⟨502, strL "model call failed: " ++ msg⟩

/-- Responder `_write_summary`: same error mapping as `_review_draft`, with the
writer's prompt. -/
def writeSummary (runtime : Option AgentRuntime) (call : List ChatMsg → ModelCallOutcome)
    (topic : Str) : Except HttpError Str :=
  match runtime with
  | none => .error ⟨503, strL "service not initialized"⟩
  | some _ =>
    let messages : List ChatMsg :=
      [⟨strL "system", writerSystemPrompt⟩, ⟨strL "user", writerUserPrompt topic⟩]
    match call messages with
    | .ok text => .ok (pyStrip (chatResponseText text))
    | .timedOut => .error ⟨504, strL "model call timed out"⟩
    | .failed msg => .error ⟨502, strL "model call failed: " ++ msg⟩

/-- Reviewer `InvokeResponse` payload. -/
structure ReviewerInvokeResponse where
  reviewed : Str
  changes_made : Bool
deriving DecidableEq

/-- The reviewer `POST /invoke` endpoint body: run `_review_draft` and
derive `changes_made = (reviewed != payload.draft.strip())`. -/
def reviewerInvoke (runtime : Option AgentRuntime) (call : List ChatMsg → ModelCallOutcome)
    (topic draft : Str) : Except HttpError ReviewerInvokeResponse :=
  match reviewDraft runtime call topic draft with
  | .error e => .error e
  | .ok reviewed => .ok ⟨reviewed, decide (reviewed ≠ pyStrip draft)⟩

/-- An exception escaping the `review_summary` MCP tool: the explicit
`RuntimeError`, or an `HTTPException` propagating out of `_review_draft`. -/
inductive ToolError where
  | runtimeError (msg : Str)
  | httpError (e : HttpError)
deriving DecidableEq

/-- The MCP tool `review_summary`: raise `RuntimeError` when uninitialized,
else run `_review_draft` and return
`{"reviewed": reviewed, "changes_made": reviewed != draft.strip()}`. -/
def reviewSummaryTool (runtime : Option AgentRuntime) (call : List ChatMsg → ModelCallOutcome)
    (topic draft : Str) : Except ToolError (Str × Bool) :=
  match runtime with
  | none => .error (.runtimeError (strL "Service not initialized"))
  | some rt =>
    match reviewDraft (some rt) call topic draft with
    | .error e => .error (.httpError e)
    | .ok reviewed => .ok (reviewed, decide (reviewed ≠ pyStrip draft))

/-!
Embedding of `_normalize_card_url` from `src/agents/workflow.py`.
-/

/-- An A2A `AgentCard` (the fields this code reads or rewrites). -/
structure AgentCard where
  name : Str
  description : Str
  url : Option Str
deriving DecidableEq

/-- Python `s.rstrip("/")`: drop trailing `/` characters. -/
def pyRStripSlash (l : Str) : Str := (l.reverse.dropWhile (· = '/')).reverse

/-- Function `_normalize_card_url`: compare the advertised URL and the fetched base
URL with trailing slashes stripped; return the card unchanged on a match,
else a copy whose `url` is the stripped fetched base URL. -/
def normalizeCardUrl (card : AgentCard) (expectedBaseUrl : Str) : AgentCard :=
  let expected := pyRStripSlash expectedBaseUrl
  let actual := pyRStripSlash (card.url.getD [])
  if actual = expected then card
  else { card with url := some expected }

example :
    onMessageSend (fun _ _ => .error ⟨strL "ValueError", strL "boom"⟩) none
      (strL "ctx1") (strL "mid1")
      ⟨⟨.user, [.text (strL "hi")], strL "m0", none⟩⟩ =
    ⟨.agent, [.text genericErrorText], strL "mid1", some (strL "ctx1")⟩ := by decide

example :
    onMessageSend (fun _ _ => .error ⟨strL "ValueError", strL "boom"⟩) (some (strL "true"))
      (strL "ctx1") (strL "mid1")
      ⟨⟨.user, [.text (strL "hi")], strL "m0", some (strL "c7")⟩⟩ =
    ⟨.agent, [.text (strL "Error: ValueError: boom")], strL "mid1", some (strL "c7")⟩ := by
  decide

example :
    normalizeCardUrl ⟨strL "writer", strL "w", some (strL "http://localhost/a2a")⟩
      (strL "http://127.0.0.1:8000/a2a") =
    ⟨strL "writer", strL "w", some (strL "http://127.0.0.1:8000/a2a")⟩ := by decide

/-- Idempotence of `List.dropWhile`. -/
theorem dropWhile_self (p : Char → Bool) (l : Str) :
    List.dropWhile p (List.dropWhile p l) = List.dropWhile p l := by
  induction l with
  | nil => rfl
  | cons c cs ih =>
    by_cases h : p c <;> simp [List.dropWhile_cons, h, ih]

/-- Idempotence of `pyRStripSlash`. -/
theorem pyRStripSlash_idem (l : Str) : pyRStripSlash (pyRStripSlash l) = pyRStripSlash l := by
  simp [pyRStripSlash, List.reverse_reverse, dropWhile_self]

/-- All characters of a list are Python whitespace. -/
def allSpace (l : Str) : Prop := ∀ c ∈ l, pyIsSpace c = true

/-- Elements of `takeWhile p` satisfy `p`. -/
theorem mem_takeWhile (p : Char → Bool) {l : Str} {c : Char} (h : c ∈ l.takeWhile p) :
    p c = true := by
  induction l with
  | nil => simp [List.takeWhile] at h
  | cons a t ih =>
    by_cases ha : p a
    · rw [List.takeWhile_cons_of_pos ha] at h
      rcases List.mem_cons.mp h with rfl | h
      · exact ha
      · exact ih h
    · rw [List.takeWhile_cons_of_neg ha] at h
      simp at h

/-- A non-`p` element of `l` survives `dropWhile p`. -/
theorem mem_dropWhile (p : Char → Bool) {l : Str} {c : Char} (hc : c ∈ l)
    (hp : p c = false) : c ∈ l.dropWhile p := by
  induction l with
  | nil => simp at hc
  | cons a t ih =>
    by_cases ha : p a
    · rw [List.dropWhile_cons_of_pos ha]
      rcases List.mem_cons.mp hc with rfl | h
      · rw [ha] at hp; cases hp
      · exact ih h
    · rw [List.dropWhile_cons_of_neg ha]
      exact hc

/-- The head of `dropWhile p` does not satisfy `p`. -/
theorem dropWhile_head_false (p : Char → Bool) {l t : Str} {c : Char}
    (h : l.dropWhile p = c :: t) : p c = false := by
  induction l with
  | nil => simp [List.dropWhile] at h
  | cons a t' ih =>
    by_cases ha : p a
    · rw [List.dropWhile_cons_of_pos ha] at h
      exact ih h
    · rw [List.dropWhile_cons_of_neg ha] at h
      cases h
      exact Bool.of_not_eq_true ha

/-- Applying `dropWhile` over an all-satisfying list is empty. -/
theorem dropWhile_of_all (p : Char → Bool) {l : Str} (h : ∀ c ∈ l, p c = true) :
    l.dropWhile p = [] := by
  induction l with
  | nil => rfl
  | cons a t ih =>
    rw [List.dropWhile_cons_of_pos (h a (List.mem_cons_self a t))]
    exact ih fun c hc => h c (List.mem_cons_of_mem a hc)

/-- A non-whitespace member of `l` survives `pyStrip`. -/
theorem mem_pyStrip {l : Str} {c : Char} (hc : c ∈ l) (hp : pyIsSpace c = false) :
    c ∈ pyStrip l := by
  have h1 : c ∈ pyLStrip l := mem_dropWhile pyIsSpace hc hp
  have h2 : c ∈ (pyLStrip l).reverse := List.mem_reverse.mpr h1
  have h3 : c ∈ (pyLStrip l).reverse.dropWhile pyIsSpace := mem_dropWhile pyIsSpace h2 hp
  exact List.mem_reverse.mpr h3

/-- A string containing a non-whitespace character strips to a non-empty
string. -/
theorem pyStrip_ne_nil {l : Str} {c : Char} (hc : c ∈ l) (hp : pyIsSpace c = false) :
    pyStrip l ≠ [] :=
  List.ne_nil_of_mem (mem_pyStrip hc hp)

/-- Decomposition of `pyRStrip`: the stripped part plus a whitespace suffix. -/
theorem pyRStrip_decomp (l : Str) :
    l = pyRStrip l ++ (l.reverse.takeWhile pyIsSpace).reverse ∧
      allSpace (l.reverse.takeWhile pyIsSpace).reverse := by
  constructor
  · calc l = l.reverse.reverse := (List.reverse_reverse l).symm
      _ = (l.reverse.takeWhile pyIsSpace ++ l.reverse.dropWhile pyIsSpace).reverse := by
          rw [List.takeWhile_append_dropWhile]
      _ = (l.reverse.dropWhile pyIsSpace).reverse ++ (l.reverse.takeWhile pyIsSpace).reverse := by
          rw [List.reverse_append]
      _ = pyRStrip l ++ (l.reverse.takeWhile pyIsSpace).reverse := rfl
  · intro c hc
    exact mem_takeWhile pyIsSpace (List.mem_reverse.mp hc)

/-- Decomposition of `pyStrip`: any string is a whitespace prefix, its stripped
core, and a whitespace suffix. -/
theorem pyStrip_decomp (l : Str) :
    ∃ pre suf, l = pre ++ pyStrip l ++ suf ∧ allSpace pre ∧ allSpace suf := by
  obtain ⟨h1, h2⟩ := pyRStrip_decomp (pyLStrip l)
  refine ⟨l.takeWhile pyIsSpace, ((pyLStrip l).reverse.takeWhile pyIsSpace).reverse,
    ?_, ?_, h2⟩
  · conv_lhs => rw [← List.takeWhile_append_dropWhile (p := pyIsSpace) (l := l)]
    rw [List.append_assoc]
    exact congrArg _ h1
  · intro c hc
    exact mem_takeWhile pyIsSpace hc

/-- The head of a stripped string is not whitespace. -/
theorem pyStrip_head_false {l t : Str} {c : Char} (h : pyStrip l = c :: t) :
    pyIsSpace c = false := by
  obtain ⟨h1, _⟩ := pyRStrip_decomp (pyLStrip l)
  rw [pyStrip] at h
  rw [h] at h1
  exact dropWhile_head_false pyIsSpace (l := l) h1

/-- The last character of a stripped string is not whitespace. -/
theorem pyStrip_getLast_false {l init : Str} {c : Char} (h : pyStrip l = init ++ [c]) :
    pyIsSpace c = false := by
  rw [pyStrip, pyRStrip] at h
  have h' : (pyLStrip l).reverse.dropWhile pyIsSpace = c :: init.reverse := by
    have := congrArg List.reverse h
    rwa [List.reverse_reverse, List.reverse_append, List.reverse_singleton,
      List.singleton_append] at this
  exact dropWhile_head_false pyIsSpace h'

/-- Appending trailing whitespace does not change `pyStrip`. -/
theorem pyStrip_append_ws {ws : Str} (x : Str) (hws : allSpace ws) :
    pyStrip (x ++ ws) = pyStrip x := by
  unfold pyStrip pyLStrip
  rw [List.dropWhile_append]
  by_cases hx : x.dropWhile pyIsSpace = []
  · rw [hx]
    simp only [List.isEmpty_nil, if_true]
    rw [dropWhile_of_all pyIsSpace hws]
  · rw [if_neg (by simpa [List.isEmpty_iff] using hx)]
    show pyRStrip (x.dropWhile pyIsSpace ++ ws) = pyRStrip (x.dropWhile pyIsSpace)
    unfold pyRStrip
    rw [List.reverse_append,
      List.dropWhile_append_of_pos (fun a ha => hws a (List.mem_reverse.mp ha))]

/-- Prepending leading whitespace does not change `pyStrip`. -/
theorem pyStrip_ws_append {ws : Str} (x : Str) (hws : allSpace ws) :
    pyStrip (ws ++ x) = pyStrip x := by
  unfold pyStrip pyLStrip
  rw [List.dropWhile_append_of_pos hws]

/-- A prefix is no longer than the list it starts. -/
theorem listStartsWith_length {pat l : Str} (h : listStartsWith pat l = true) :
    pat.length ≤ l.length := by
  induction pat generalizing l with
  | nil => simp
  | cons p ps ih =>
    cases l with
    | nil => simp [listStartsWith] at h
    | cons a t =>
      simp only [listStartsWith, Bool.and_eq_true, decide_eq_true_eq] at h
      simpa using Nat.succ_le_succ (ih h.2)

/-- A pattern with a non-whitespace head never starts at a whitespace
character. -/
theorem listStartsWith_ws_head {ps l : Str} {p c : Char} (hp : pyIsSpace p = false)
    (hc : pyIsSpace c = true) : listStartsWith (p :: ps) (c :: l) = false := by
  have hne : p ≠ c := fun he => by rw [he, hc] at hp; cases hp
  simp [listStartsWith, hne]

/-- Appending trailing whitespace does not affect whether an all-non-space
pattern starts a list. -/
theorem listStartsWith_append_ws {pat ws : Str} (x : Str)
    (hpat : ∀ a ∈ pat, pyIsSpace a = false) (hws : allSpace ws) :
    listStartsWith pat (x ++ ws) = listStartsWith pat x := by
  induction pat generalizing x with
  | nil => rfl
  | cons p ps ih =>
    cases x with
    | nil =>
      simp only [List.nil_append]
      cases ws with
      | nil => rfl
      | cons w t =>
        exact listStartsWith_ws_head (hpat p (List.mem_cons_self p ps))
          (hws w (List.mem_cons_self w t))
    | cons a t =>
      simp only [List.cons_append, listStartsWith]
      congr 1
      exact ih t (fun a ha => hpat a (List.mem_cons_of_mem p ha))

/-- A pattern with a non-whitespace head does not occur in an all-whitespace
string. -/
theorem pyFind_all_ws {ws ps : Str} {p : Char} (hws : allSpace ws)
    (hp : pyIsSpace p = false) : pyFind ws (p :: ps) = none := by
  induction ws with
  | nil => rfl
  | cons w t ih =>
    rw [pyFind.eq_def]
    rw [listStartsWith_ws_head hp (hws w (List.mem_cons_self w t))]
    simp only [Bool.false_eq_true, if_false]
    rw [ih fun c hc => hws c (List.mem_cons_of_mem w hc)]
    rfl

/-- Searching after a whitespace prefix shifts the found index by the prefix
length (for a pattern whose head is not whitespace). -/
theorem pyFind_ws_append {ws ps : Str} {p : Char} (l : Str) (hws : allSpace ws)
    (hp : pyIsSpace p = false) :
    pyFind (ws ++ l) (p :: ps) = (pyFind l (p :: ps)).map (· + ws.length) := by
  induction ws with
  | nil =>
    simp only [List.nil_append, List.length_nil]
    cases pyFind l (p :: ps) <;> simp
  | cons w t ih =>
    rw [List.cons_append, pyFind.eq_def]
    rw [listStartsWith_ws_head hp (hws w (List.mem_cons_self w t))]
    simp only [Bool.false_eq_true, if_false]
    rw [ih fun c hc => hws c (List.mem_cons_of_mem w hc)]
    cases pyFind l (p :: ps) with
    | none => rfl
    | some i =>
      show some (i + t.length + 1) = some (i + (t.length + 1))
      rw [Nat.add_assoc]

/-- Trailing whitespace does not affect where an all-non-space pattern first
occurs. -/
theorem pyFind_append_ws {ps ws : Str} {p : Char} (x : Str)
    (hpat : ∀ a ∈ p :: ps, pyIsSpace a = false) (hws : allSpace ws) :
    pyFind (x ++ ws) (p :: ps) = pyFind x (p :: ps) := by
  induction x with
  | nil =>
    simp only [List.nil_append]
    rw [pyFind_all_ws hws (hpat p (List.mem_cons_self p ps))]
    rfl
  | cons a t ih =>
    rw [List.cons_append, pyFind.eq_def]
    conv_rhs => rw [pyFind.eq_def]
    rw [show listStartsWith (p :: ps) (a :: (t ++ ws)) = listStartsWith (p :: ps) (a :: t) from
      listStartsWith_append_ws (a :: t) hpat hws]
    by_cases hs : listStartsWith (p :: ps) (a :: t) = true
    · rw [hs]
      rfl
    · rw [Bool.not_eq_true] at hs
      rw [hs]
      simp only [Bool.false_eq_true, if_false]
      rw [ih]

/-- A found index is within bounds: the occurrence fits inside the string. -/
theorem pyFind_bound {hay pat : Str} {i : Nat} (h : pyFind hay pat = some i) :
    i + pat.length ≤ hay.length := by
  induction hay generalizing i with
  | nil =>
    rw [pyFind.eq_def] at h
    by_cases hs : listStartsWith pat [] = true
    · rw [hs] at h
      simp only [if_true, Option.some_inj] at h
      have := listStartsWith_length hs
      omega
    · rw [Bool.not_eq_true] at hs
      rw [hs] at h
      simp at h
  | cons a t ih =>
    rw [pyFind.eq_def] at h
    by_cases hs : listStartsWith pat (a :: t) = true
    · rw [hs] at h
      simp only [if_true, Option.some_inj] at h
      have := listStartsWith_length hs
      omega
    · rw [Bool.not_eq_true] at hs
      rw [hs] at h
      simp only [Bool.false_eq_true, if_false] at h
      cases hf : pyFind t pat with
      | none => rw [hf] at h; simp at h
      | some j =>
        rw [hf] at h
        simp only [Option.map_some', Option.some_inj] at h
        have := ih hf
        simp only [List.length_cons]
        omega

/-- Whitespace characters are unchanged by the ASCII fold. -/
theorem asciiFoldChar_space_id {c : Char} (h : pyIsSpace c = true) : asciiFoldChar c = c := by
  have hn : ¬ (65 ≤ c.toNat ∧ c.toNat ≤ 90) := by
    simp only [pyIsSpace, List.mem_cons, List.not_mem_nil, or_false,
      decide_eq_true_eq] at h
    omega
  simp [asciiFoldChar, hn]

/-- The ASCII fold is the identity on all-whitespace strings. -/
theorem asciiFold_all_ws {l : Str} (h : allSpace l) : asciiFold l = l := by
  induction l with
  | nil => rfl
  | cons c t ih =>
    show asciiFoldChar c :: asciiFold t = c :: t
    rw [asciiFoldChar_space_id (h c (List.mem_cons_self c t)),
      ih fun a ha => h a (List.mem_cons_of_mem c ha)]

/-- The ASCII fold distributes over append. -/
theorem asciiFold_append (a b : Str) : asciiFold (a ++ b) = asciiFold a ++ asciiFold b :=
  List.map_append _ _ _

/-- A character of the stripped string is a character of the string. -/
theorem mem_of_mem_pyStrip {l : Str} {c : Char} (hc : c ∈ pyStrip l) : c ∈ l := by
  obtain ⟨pre, suf, hdec, _, _⟩ := pyStrip_decomp l
  rw [hdec]
  exact List.mem_append_left _ (List.mem_append_right _ hc)

/-- On strings without U+0130 — the one code point whose CPython lowercase
mapping is longer than one character — `pyLower` coincides with the
positionwise ASCII fold. -/
theorem pyLower_eq_asciiFold {l : Str} (h : ∀ c ∈ l, c.toNat ≠ 0x130) :
    pyLower l = asciiFold l := by
  induction l with
  | nil => rfl
  | cons c t ih =>
    show (c :: t).flatMap pyLowerChar = asciiFoldChar c :: asciiFold t
    rw [List.flatMap_cons]
    rw [show pyLowerChar c = [asciiFoldChar c] from by
      rw [pyLowerChar, if_neg (h c (List.mem_cons_self c t)), asciiFoldChar]
      split <;> rfl]
    rw [List.singleton_append]
    exact congrArg _ (ih fun a ha => h a (List.mem_cons_of_mem c ha))

/-- Dropping within the first part of an append. -/
theorem drop_append_le {l₂ : Str} (l₁ : Str) (n : Nat) (h : n ≤ l₁.length) :
    (l₁ ++ l₂).drop n = l₁.drop n ++ l₂ := by
  induction l₁ generalizing n with
  | nil =>
    simp at h
    subst h
    simp
  | cons a t ih =>
    cases n with
    | zero => simp
    | succ m =>
      simp only [List.cons_append, List.drop_succ_cons]
      exact ih m (by simpa using h)

/-- Taking within the first part of an append. -/
theorem take_append_le {l₂ : Str} (l₁ : Str) (n : Nat) (h : n ≤ l₁.length) :
    (l₁ ++ l₂).take n = l₁.take n := by
  induction l₁ generalizing n with
  | nil =>
    simp at h
    subst h
    simp
  | cons a t ih =>
    cases n with
    | zero => simp
    | succ m =>
      simp only [List.cons_append, List.take_succ_cons]
      rw [ih m (by simpa using h)]

/-- A slice taken inside the middle component of a three-part append equals
the same slice of the middle component, for in-bounds indices shifted by the
prefix length. -/
theorem pySlice_mid (pre core suf : Str) (a b : Nat) (ha : a ≤ core.length)
    (hb : b ≤ core.length) :
    pySlice (pre ++ (core ++ suf)) (pre.length + a) (pre.length + b) = pySlice core a b := by
  unfold pySlice
  have h1 : (pre ++ (core ++ suf)).drop (pre.length + a) = (core ++ suf).drop a := by
    rw [← List.drop_drop, List.drop_left]
  rw [h1, show pre.length + b - (pre.length + a) = b - a from by omega]
  rw [drop_append_le core a ha]
  rw [take_append_le _ _ (by simp [List.length_drop]; omega)]

/-- A drop-to-end taken inside the middle component of a three-part append:
the same drop of the middle component followed by the suffix. -/
theorem drop_mid (pre core suf : Str) (a : Nat) (ha : a ≤ core.length) :
    (pre ++ (core ++ suf)).drop (pre.length + a) = core.drop a ++ suf := by
  rw [← List.drop_drop, List.drop_left, drop_append_le core a ha]

/-- C1: the code's actual behaviour on the out-of-scope messaging surface:
`on_get_task` and `on_cancel_task` silently return `None` instead of raising
`UnsupportedOperationError`, while every push-notification operation and
resubscription does raise it.  This contradicts the claim (and the class's
own docstring) for task polling and cancellation. -/
theorem c1_unsupported_surface_behavior :
    onGetTask ⟨strL "task-1"⟩ = .returns none ∧
    onGetTask ⟨strL "task-1"⟩ ≠ .unsupportedOperationError ∧
    onCancelTask ⟨strL "task-1"⟩ = .returns none ∧
    onCancelTask ⟨strL "task-1"⟩ ≠ .unsupportedOperationError ∧
    onSetTaskPushConfig ⟨strL "task-1"⟩ = .unsupportedOperationError ∧
    onGetTaskPushConfig ⟨strL "task-1"⟩ = .unsupportedOperationError ∧
    onListTaskPushConfig ⟨strL "task-1"⟩ = .unsupportedOperationError ∧
    onDeleteTaskPushConfig ⟨strL "task-1"⟩ = .unsupportedOperationError ∧
    onResubscribeToTask ⟨strL "task-1"⟩ = .unsupportedOperationError := by
  refine ⟨rfl, ?_, rfl, ?_, rfl, rfl, rfl, rfl, rfl⟩ <;> decide

/-- C2: when the responder raises, `on_message_send` still returns a
well-formed agent reply carrying the freshly minted message id and the
resolved-or-minted context id; its text is the exception detail
(`Error: {type}: {message}`) when `A2A_INCLUDE_ERROR_DETAILS` parses truthy,
else the fixed generic text; and the flag is off by default (env unset). -/
theorem c2_error_reply (respond : Str → Str → Except PyExc Str) (env : Option Str)
    (fc fm : Str) (params : MessageSendParams) (e : PyExc)
    (h : respond (messageText params.message) (pyOrNewId params.message.contextId fc) =
      .error e) :
    onMessageSend respond env fc fm params =
      { role := .agent
        parts := [.text (if includeErrorDetailsFlag env then excErrorText e
          else genericErrorText)]
        messageId := fm
        contextId := some (pyOrNewId params.message.contextId fc) } ∧
    includeErrorDetailsFlag none = false := by
  refine ⟨?_, by decide⟩
  simp only [onMessageSend, h]

/-- C2 witness: a responder raising `ValueError: boom` with the flag unset
produces the generic error reply envelope. -/
theorem c2_error_reply_witness :
    onMessageSend (fun _ _ => .error ⟨strL "ValueError", strL "boom"⟩) none
      (strL "ctx-fresh") (strL "mid-fresh") ⟨⟨.user, [.text (strL "hi")], strL "m0", none⟩⟩ =
      { role := .agent
        parts := [.text (if includeErrorDetailsFlag none then
          excErrorText ⟨strL "ValueError", strL "boom"⟩ else genericErrorText)]
        messageId := strL "mid-fresh"
        contextId := some (pyOrNewId none (strL "ctx-fresh")) } ∧
    includeErrorDetailsFlag none = false :=
  c2_error_reply (fun _ _ => .error ⟨strL "ValueError", strL "boom"⟩) none
    (strL "ctx-fresh") (strL "mid-fresh") ⟨⟨.user, [.text (strL "hi")], strL "m0", none⟩⟩
    ⟨strL "ValueError", strL "boom"⟩ rfl

/-- C4: on the success path, both the `/invoke` endpoint and the
`review_summary` MCP tool return `changes_made` computed as exact string
inequality between the trimmed model output and the trimmed input draft. -/
theorem c4_changes_made (rt : AgentRuntime) (call : List ChatMsg → ModelCallOutcome)
    (topic draft : Str) (text : Option Str)
    (h : call [⟨strL "system", reviewerSystemPrompt⟩,
      ⟨strL "user", reviewerUserPrompt topic draft⟩] = .ok text) :
    reviewerInvoke (some rt) call topic draft =
      .ok ⟨pyStrip (chatResponseText text),
        decide (pyStrip (chatResponseText text) ≠ pyStrip draft)⟩ ∧
    reviewSummaryTool (some rt) call topic draft =
      .ok (pyStrip (chatResponseText text),
        decide (pyStrip (chatResponseText text) ≠ pyStrip draft)) ∧
    ((decide (pyStrip (chatResponseText text) ≠ pyStrip draft) = true) ↔
      pyStrip (chatResponseText text) ≠ pyStrip draft) := by
  refine ⟨?_, ?_, by simp⟩ <;>
    simp [reviewerInvoke, reviewSummaryTool, reviewDraft, h]

/-- C4 witness: a concrete model output differing from the draft yields
`changes_made = true` data. -/
theorem c4_changes_made_witness :
    reviewerInvoke (some ⟨strL "r"⟩) (fun _ => .ok (some (strL "better text")))
      (strL "t") (strL "d") =
      .ok ⟨pyStrip (chatResponseText (some (strL "better text"))),
        decide (pyStrip (chatResponseText (some (strL "better text"))) ≠ pyStrip (strL "d"))⟩ ∧
    reviewSummaryTool (some ⟨strL "r"⟩) (fun _ => .ok (some (strL "better text")))
      (strL "t") (strL "d") =
      .ok (pyStrip (chatResponseText (some (strL "better text"))),
        decide (pyStrip (chatResponseText (some (strL "better text"))) ≠ pyStrip (strL "d"))) ∧
    ((decide (pyStrip (chatResponseText (some (strL "better text"))) ≠ pyStrip (strL "d")) =
      true) ↔ pyStrip (chatResponseText (some (strL "better text"))) ≠ pyStrip (strL "d")) :=
  c4_changes_made ⟨strL "r"⟩ (fun _ => .ok (some (strL "better text")))
    (strL "t") (strL "d") (some (strL "better text")) rfl

/-- C7: in both core responders, the three error kinds map to the three
pairwise-distinct status codes 503 (invoked before the runtime exists),
504 (bounded wait elapsed), and 502 (any other model-call failure, carrying
the underlying message); a call whose bounded wait elapses yields the 504
outcome rather than a success. -/
theorem c7_error_status_mapping (rt : AgentRuntime) (call : List ChatMsg → ModelCallOutcome)
    (topic draft msg : Str) :
    reviewDraft none call topic draft = .error ⟨503, strL "service not initialized"⟩ ∧
    writeSummary none call topic = .error ⟨503, strL "service not initialized"⟩ ∧
    reviewDraft (some rt) (fun _ => .timedOut) topic draft =
      .error ⟨504, strL "model call timed out"⟩ ∧
    writeSummary (some rt) (fun _ => .timedOut) topic =
      .error ⟨504, strL "model call timed out"⟩ ∧
    reviewDraft (some rt) (fun _ => .failed msg) topic draft =
      .error ⟨502, strL "model call failed: " ++ msg⟩ ∧
    writeSummary (some rt) (fun _ => .failed msg) topic =
      .error ⟨502, strL "model call failed: " ++ msg⟩ ∧
    ((503 : Nat) ≠ 504 ∧ (503 : Nat) ≠ 502 ∧ (504 : Nat) ≠ 502) :=
  ⟨rfl, rfl, rfl, rfl, rfl, rfl, by decide⟩

/-- C8 counterexample: a card advertising the fetched base URL plus a
trailing slash is returned unchanged, so the result's URL is not equal to
the address the card was fetched from, refuting the claim's final clause. -/
theorem c8_counterexample :
    normalizeCardUrl ⟨strL "writer", strL "w", some (strL "http://localhost:8000/a2a/")⟩
        (strL "http://localhost:8000/a2a") =
      ⟨strL "writer", strL "w", some (strL "http://localhost:8000/a2a/")⟩ ∧
    (normalizeCardUrl ⟨strL "writer", strL "w", some (strL "http://localhost:8000/a2a/")⟩
        (strL "http://localhost:8000/a2a")).url ≠
      some (strL "http://localhost:8000/a2a") := by decide

/-- C8 (amended): URLs are compared and rewritten with trailing slashes
stripped: a card matching the fetched base up to trailing slashes is
returned unchanged, a non-matching card is rewritten to the stripped fetched
base, and in all cases the result's URL equals the fetched address up to
trailing-slash normalization. -/
theorem c8_normalize_card_url (card : AgentCard) (base : Str) :
    pyRStripSlash ((normalizeCardUrl card base).url.getD []) = pyRStripSlash base ∧
    (pyRStripSlash (card.url.getD []) = pyRStripSlash base →
      normalizeCardUrl card base = card) ∧
    (pyRStripSlash (card.url.getD []) ≠ pyRStripSlash base →
      normalizeCardUrl card base =
        { name := card.name, description := card.description,
          url := some (pyRStripSlash base) }) := by
  by_cases h : pyRStripSlash (card.url.getD []) = pyRStripSlash base
  · refine ⟨?_, fun _ => ?_, fun hne => absurd h hne⟩ <;>
      simp [normalizeCardUrl, h]
  · refine ⟨?_, fun he => absurd he h, fun _ => ?_⟩ <;>
      simp [normalizeCardUrl, h, pyRStripSlash_idem]

/-- C8 witness: the amended statement at a matching and at a non-matching
concrete card. -/
theorem c8_normalize_card_url_witness :
    normalizeCardUrl ⟨strL "w", strL "d", some (strL "http://h/a2a")⟩ (strL "http://h/a2a") =
      ⟨strL "w", strL "d", some (strL "http://h/a2a")⟩ ∧
    normalizeCardUrl ⟨strL "w", strL "d", some (strL "http://old/a2a")⟩ (strL "http://h/a2a") =
      ⟨strL "w", strL "d", some (strL "http://h/a2a")⟩ :=
  ⟨(c8_normalize_card_url ⟨strL "w", strL "d", some (strL "http://h/a2a")⟩
      (strL "http://h/a2a")).2.1 (by decide),
   (c8_normalize_card_url ⟨strL "w", strL "d", some (strL "http://old/a2a")⟩
      (strL "http://h/a2a")).2.2 (by decide)⟩

/-- C9: the streaming messaging operation yields exactly one item, and that
item is the full reply of the non-streaming operation on the same
parameters. -/
theorem c9_stream_single_chunk (respond : Str → Str → Except PyExc Str) (env : Option Str)
    (fc fm : Str) (params : MessageSendParams) :
    onMessageSendStream respond env fc fm params =
      [onMessageSend respond env fc fm params] ∧
    (onMessageSendStream respond env fc fm params).length = 1 :=
  ⟨rfl, rfl⟩

/-- C5 counterexample: the claim as stated fails twice over.  At
`" hello "` (single-line, no markers at all) the adapter returns the
stripped text, not the whole raw input text.  And at `"İtopic: draft:yz"` —
single-line, and case-insensitively not matching the form, since the true
text between `"topic:"` and `"draft:"` trims to empty — the adapter returns
`("d", "z")`: it locates the markers in the lowercased copy, which U+0130
has lengthened by one, and applies the shifted indices to the unlowered
text, so its first rule fires with misaligned fields. -/
theorem c5_counterexample :
    parseReviewInput (strL " hello ") = (strL "hello", strL "hello") ∧
    (strL "hello", strL "hello") ≠ (strL " hello ", strL " hello ") ∧
    pyStrip (pySlice (strL "İtopic: draft:yz") (1 + 6) 8) = [] ∧
    parseReviewInput (strL "İtopic: draft:yz") = (strL "d", strL "z") ∧
    (strL "d", strL "z") ≠ (strL "İtopic: draft:yz", strL "İtopic: draft:yz") := by
  decide

/-- C5 (amended): an input whose stripped text is single-line (fewer than
two lines) and on which the adapter's `topic:`/`draft:` rule does not fire —
the rule locates the markers in the Python-lowercased copy of the stripped
text, so U+0130 shifts its indices — parses to the whole raw text in the
code's sense, the input stripped of surrounding whitespace, for both topic
and draft. -/
theorem c5_single_line (s : Str) (hform : topicDraftSplit (pyStrip s) = none)
    (hsingle : (pySplitlines (pyStrip s)).length < 2) :
    parseReviewInput s = (pyStrip s, pyStrip s) := by
  have h2 : ¬ 2 ≤ (pySplitlines (pyStrip s)).length := by omega
  simp only [parseReviewInput, hform, h2, if_false]

/-- C5 witness: `"hello world"` parses to itself for both fields. -/
theorem c5_single_line_witness :
    parseReviewInput (strL "hello world") =
      (pyStrip (strL "hello world"), pyStrip (strL "hello world")) :=
  c5_single_line (strL "hello world") (by decide) (by decide)

/-- C6 counterexample: on `"a \nb"` (first line `"a "` with a trailing
space) the adapter does not return the first line verbatim — it returns the
stripped first line `"a"` — refuting the claim as stated.  Moreover the
multi-line rule only governs inputs on which the adapter's own
`topic:`/`draft:` rule does not fire: at `"İtopic: draft:yz\nw"` — two
stripped lines, and case-insensitively not matching the form, since the
true between-field trims to empty — the first rule nevertheless fires with
U+0130-shifted indices and returns `("d", "z\nw")`, not a line split. -/
theorem c6_counterexample :
    topicDraftSplit (pyStrip (strL "a \nb")) = none ∧
    (pySplitlines (pyStrip (strL "a \nb"))).headD [] = strL "a " ∧
    pyJoinNL ((pySplitlines (pyStrip (strL "a \nb"))).drop 1) = strL "b" ∧
    parseReviewInput (strL "a \nb") ≠ (strL "a ", strL "b") ∧
    pyStrip (pySlice (strL "İtopic: draft:yz\nw") (1 + 6) 8) = [] ∧
    (pySplitlines (pyStrip (strL "İtopic: draft:yz\nw"))).length = 2 ∧
    parseReviewInput (strL "İtopic: draft:yz\nw") = (strL "d", strL "z\nw") := by decide

/-- C6 (amended): an input whose stripped text has at least two lines and
on which the adapter's `topic:`/`draft:` rule does not fire (the rule
locates the markers in the Python-lowercased copy of the stripped text, so
U+0130 shifts its indices) parses to the *stripped* first line and the
*stripped* newline-join of the remaining lines, falling back to the whole
raw (stripped) text for any field that is empty after stripping. -/
theorem c6_multi_line (s : Str) (hform : topicDraftSplit (pyStrip s) = none)
    (hmulti : 2 ≤ (pySplitlines (pyStrip s)).length) :
    parseReviewInput s =
      (pyOrElse (pyStrip ((pySplitlines (pyStrip s)).headD [])) (pyStrip s),
       pyOrElse (pyStrip (pyJoinNL ((pySplitlines (pyStrip s)).drop 1))) (pyStrip s)) := by
  simp only [parseReviewInput, hform, hmulti, if_true]

/-- C6 witness: the claim's own example input parses to
`("Climate change", "Polar bears are affected by melting ice.")`. -/
theorem c6_multi_line_witness :
    parseReviewInput (strL "Climate change\nPolar bears are affected by melting ice.") =
      (strL "Climate change", strL "Polar bears are affected by melting ice.") :=
  c6_multi_line (strL "Climate change\nPolar bears are affected by melting ice.")
    (by decide) (by decide)

/-- C3 (amended): for inputs containing no U+0130 — the one character whose
Python lowercasing changes length and thereby shifts the indices the adapter
takes from the lowercased copy — whenever the case-insensitive `"topic:"`
first occurs strictly before the first `"draft:"` in the input and both the
trimmed text between them and the trimmed text after `"draft:"` are
non-empty, the adapter returns exactly that pair of trimmed substrings.
The case-insensitive occurrences are expressed with the positionwise
`asciiFold`, whose indices refer to the input itself. -/
theorem c3_topic_draft_form (s : Str) (ti di : Nat)
    (hno : ∀ c ∈ s, c.toNat ≠ 0x130)
    (hti : pyFind (asciiFold s) topicTag = some ti)
    (hdi : pyFind (asciiFold s) draftTag = some di)
    (hlt : ti < di)
    (htopic : pyStrip (pySlice s (ti + 6) di) ≠ [])
    (hdraft : pyStrip (List.drop (di + 6) s) ≠ []) :
    parseReviewInput s =
      (pyStrip (pySlice s (ti + 6) di), pyStrip (List.drop (di + 6) s)) := by
  obtain ⟨pre, suf, hdec, hpre, hsuf⟩ := pyStrip_decomp s
  have hbridge : pyLower (pyStrip s) = asciiFold (pyStrip s) :=
    pyLower_eq_asciiFold fun c hc => hno c (mem_of_mem_pyStrip hc)
  have hmap := congrArg asciiFold hdec
  rw [asciiFold_append, asciiFold_append, asciiFold_all_ws hpre, asciiFold_all_ws hsuf,
    List.append_assoc] at hmap
  rw [hmap] at hti hdi
  have et1 : pyFind (pre ++ (asciiFold (pyStrip s) ++ suf)) topicTag =
      (pyFind (asciiFold (pyStrip s) ++ suf) topicTag).map (· + pre.length) :=
    pyFind_ws_append _ hpre (by decide)
  have et2 : pyFind (asciiFold (pyStrip s) ++ suf) topicTag =
      pyFind (asciiFold (pyStrip s)) topicTag :=
    pyFind_append_ws _ (by decide) hsuf
  have ed1 : pyFind (pre ++ (asciiFold (pyStrip s) ++ suf)) draftTag =
      (pyFind (asciiFold (pyStrip s) ++ suf) draftTag).map (· + pre.length) :=
    pyFind_ws_append _ hpre (by decide)
  have ed2 : pyFind (asciiFold (pyStrip s) ++ suf) draftTag =
      pyFind (asciiFold (pyStrip s)) draftTag :=
    pyFind_append_ws _ (by decide) hsuf
  rw [et1, et2] at hti
  rw [ed1, ed2] at hdi
  cases hfd_t : pyFind (asciiFold (pyStrip s)) topicTag with
  | none => rw [hfd_t] at hti; simp at hti
  | some ti1 =>
    rw [hfd_t] at hti
    simp only [Option.map_some', Option.some_inj] at hti
    cases hfd_d : pyFind (asciiFold (pyStrip s)) draftTag with
    | none => rw [hfd_d] at hdi; simp at hdi
    | some di1 =>
      rw [hfd_d] at hdi
      simp only [Option.map_some', Option.some_inj] at hdi
      have hlenlow : (asciiFold (pyStrip s)).length = (pyStrip s).length :=
        List.length_map _ _
      have hbt := pyFind_bound hfd_t
      have hbd := pyFind_bound hfd_d
      have hbt' : ti1 + 6 ≤ (pyStrip s).length := by
        simp only [topicTag, List.length_cons, List.length_nil] at hbt
        omega
      have hbd' : di1 + 6 ≤ (pyStrip s).length := by
        simp only [draftTag, List.length_cons, List.length_nil] at hbd
        omega
      have hlt1 : ti1 < di1 := by omega
      have hsl : pySlice s (ti + 6) di = pySlice (pyStrip s) (ti1 + 6) di1 := by
        conv_lhs => rw [hdec, List.append_assoc]
        rw [show ti + 6 = pre.length + (ti1 + 6) from by omega,
          show di = pre.length + di1 from by omega]
        exact pySlice_mid pre (pyStrip s) suf (ti1 + 6) di1 (by omega) (by omega)
      have hdr : List.drop (di + 6) s = List.drop (di1 + 6) (pyStrip s) ++ suf := by
        conv_lhs => rw [hdec, List.append_assoc]
        rw [show di + 6 = pre.length + (di1 + 6) from by omega]
        exact drop_mid pre (pyStrip s) suf (di1 + 6) (by omega)
      have hD : pyStrip (List.drop (di + 6) s) =
          pyStrip (List.drop (di1 + 6) (pyStrip s)) := by
        rw [hdr, pyStrip_append_ws _ hsuf]
      have hT1 : pyStrip (pySlice (pyStrip s) (ti1 + 6) di1) ≠ [] := by
        rw [← hsl]; exact htopic
      have hD1 : pyStrip (List.drop (di1 + 6) (pyStrip s)) ≠ [] := by
        rw [← hD]; exact hdraft
      have htds : topicDraftSplit (pyStrip s) =
          some (pyStrip (pySlice s (ti + 6) di), pyStrip (List.drop (di + 6) s)) := by
        unfold topicDraftSplit
        rw [hbridge, hfd_t, hfd_d]
        show (if ti1 < di1 then
            let topic := pyStrip (pySlice (pyStrip s) (ti1 + 6) di1)
            let draft := pyStrip (List.drop (di1 + 6) (pyStrip s))
            if topic ≠ [] ∧ draft ≠ [] then some (topic, draft) else none
          else none) = _
        rw [if_pos hlt1]
        show (if pyStrip (pySlice (pyStrip s) (ti1 + 6) di1) ≠ [] ∧
            pyStrip (List.drop (di1 + 6) (pyStrip s)) ≠ [] then
            some (pyStrip (pySlice (pyStrip s) (ti1 + 6) di1),
              pyStrip (List.drop (di1 + 6) (pyStrip s)))
          else none) = _
        rw [if_pos ⟨hT1, hD1⟩, hsl, hD]
      simp only [parseReviewInput, htds]

/-- C3 witness: the claim's own example input parses to
`("Rust", "rust is a language")`. -/
theorem c3_topic_draft_form_witness :
    parseReviewInput (strL "Topic: Rust\n\nDraft: rust is a language") =
      (strL "Rust", strL "rust is a language") :=
  (c3_topic_draft_form (strL "Topic: Rust\n\nDraft: rust is a language") 0 13
    (by decide) (by decide) (by decide) (by decide) (by decide) (by decide)).trans (by decide)

/-- C3 counterexample: at `"İTopic: A Draft: B"` the claim's antecedent
holds — case-insensitively, the first `"topic:"` (input index 1) precedes
the first `"draft:"` (input index 10) and the trimmed between/after texts
are `"A"` and `"B"` — yet the program returns `("A D", "B")`, because the
lowercased copy in which `_parse_review_input` locates the markers is one
character longer than the input (U+0130 lowers to two characters), and the
shifted indices are applied to the unlowered text. -/
theorem c3_counterexample :
    pyFind (asciiFold (strL "İTopic: A Draft: B")) topicTag = some 1 ∧
    pyFind (asciiFold (strL "İTopic: A Draft: B")) draftTag = some 10 ∧
    pyStrip (pySlice (strL "İTopic: A Draft: B") (1 + 6) 10) = strL "A" ∧
    pyStrip (List.drop (10 + 6) (strL "İTopic: A Draft: B")) = strL "B" ∧
    parseReviewInput (strL "İTopic: A Draft: B") = (strL "A D", strL "B") ∧
    (strL "A D", strL "B") ≠ (strL "A", strL "B") := by decide

/-- Every line-boundary character is whitespace. -/
theorem pyIsSpace_of_isLineBreak {c : Char} (h : isLineBreak c = true) :
    pyIsSpace c = true := by
  simp only [isLineBreak, List.mem_cons, List.not_mem_nil, or_false,
    decide_eq_true_eq] at h
  simp only [pyIsSpace, List.mem_cons, List.not_mem_nil, or_false,
    decide_eq_true_eq]
  omega

/-- A non-whitespace character is not a line boundary. -/
theorem isLineBreak_false_of_space_false {c : Char} (h : pyIsSpace c = false) :
    isLineBreak c = false := by
  cases hb : isLineBreak c with
  | false => rfl
  | true => rw [pyIsSpace_of_isLineBreak hb] at h; cases h

/-- Unfolding `pySplitlinesGo` at a `\r\n` boundary. -/
theorem splitGo_crlf (cs : Str) :
    pySplitlinesGo ('\r' :: '\n' :: cs) =
      [] :: (if cs = [] then [] else pySplitlinesGo cs) := by
  rfl

/-- Unfolding `pySplitlinesGo` at a line boundary other than `\r\n`. -/
theorem splitGo_cons_break (c : Char) (cs : Str) (hbr : isLineBreak c = true)
    (hno : ¬ (c = '\r' ∧ cs.head? = some '\n')) :
    pySplitlinesGo (c :: cs) = [] :: (if cs = [] then [] else pySplitlinesGo cs) := by
  rw [pySplitlinesGo.eq_def]
  split
  · rename_i heq
    cases heq
  · rename_i rest heq
    obtain ⟨rfl, rfl⟩ := heq
    exact absurd ⟨rfl, rfl⟩ hno
  · rename_i c' cs' h1 h2 heq
    rw [List.cons.injEq] at heq
    obtain ⟨rfl, rfl⟩ := heq
    rw [if_pos hbr]

/-- Unfolding `pySplitlinesGo` at a non-boundary character. -/
theorem splitGo_cons_nobreak (c : Char) (cs : Str) (hbr : isLineBreak c = false) :
    pySplitlinesGo (c :: cs) =
      match pySplitlinesGo cs with
      | [] => [[c]]
      | l :: ls => (c :: l) :: ls := by
  have hcr : ¬ (c = '\r') := by
    intro h
    rw [h] at hbr
    exact absurd hbr (by decide)
  rw [pySplitlinesGo.eq_def]
  split
  · rename_i heq
    cases heq
  · rename_i rest heq
    rw [List.cons.injEq] at heq
    exact absurd heq.1 hcr
  · rename_i c' cs' h1 h2 heq
    rw [List.cons.injEq] at heq
    obtain ⟨rfl, rfl⟩ := heq
    rw [if_neg (by rw [hbr]; exact Bool.false_ne_true)]

/-- A single non-boundary character splits to one singleton line. -/
theorem splitGo_singleton (c : Char) (hbr : isLineBreak c = false) :
    pySplitlinesGo [c] = [[c]] := by
  rw [splitGo_cons_nobreak c [] hbr]
  rfl

/-- The first line produced by `pySplitlinesGo` starts with the first
character when it is not a line boundary. -/
theorem splitGo_head (c : Char) (cs : Str) (hbr : isLineBreak c = false) :
    ∃ l ls, pySplitlinesGo (c :: cs) = (c :: l) :: ls := by
  rw [splitGo_cons_nobreak c cs hbr]
  cases pySplitlinesGo cs with
  | nil => exact ⟨[], [], rfl⟩
  | cons l ls => exact ⟨l, ls, rfl⟩

/-- When the last character of the input is not a line boundary, the last
line produced by `pySplitlinesGo` ends with that character. -/
theorem splitGo_concat (c : Char) (hbr : isLineBreak c = false) :
    ∀ (n : Nat) (cs : Str), cs.length ≤ n →
      ∃ ls l, pySplitlinesGo (cs ++ [c]) = ls ++ [l ++ [c]] := by
  intro n
  induction n with
  | zero =>
    intro cs hcs
    have hnil : cs = [] := List.eq_nil_of_length_eq_zero (by omega)
    subst hnil
    refine ⟨[], [], ?_⟩
    simp only [List.nil_append]
    exact splitGo_singleton c hbr
  | succ m ih =>
    intro cs hcs
    cases cs with
    | nil =>
      refine ⟨[], [], ?_⟩
      simp only [List.nil_append]
      exact splitGo_singleton c hbr
    | cons a cs' =>
      simp only [List.cons_append]
      simp only [List.length_cons] at hcs
      by_cases hba : isLineBreak a = true
      · by_cases hcrlf : a = '\r' ∧ cs' ≠ [] ∧ cs'.head? = some '\n'
        · obtain ⟨rfl, hne, hh⟩ := hcrlf
          cases cs' with
          | nil => exact absurd rfl hne
          | cons b cs'' =>
            have hb : b = '\n' := by simpa using hh
            subst hb
            rw [show ('\n' :: cs'') ++ [c] = '\n' :: (cs'' ++ [c]) from rfl]
            rw [splitGo_crlf (cs'' ++ [c])]
            rw [if_neg (by simp)]
            obtain ⟨ls, l, hrec⟩ := ih cs'' (by simp at hcs; omega)
            rw [hrec]
            exact ⟨[] :: ls, l, rfl⟩
        · have hno : ¬ (a = '\r' ∧ (cs' ++ [c]).head? = some '\n') := by
            intro ⟨ha, hh⟩
            cases cs' with
            | nil =>
              simp only [List.nil_append, List.head?_cons, Option.some_inj] at hh
              rw [hh] at hbr
              exact absurd hbr (by decide)
            | cons b cs'' =>
              simp only [List.cons_append, List.head?_cons] at hh
              exact hcrlf ⟨ha, by simp, by simpa using hh⟩
          rw [splitGo_cons_break a (cs' ++ [c]) hba hno]
          rw [if_neg (by simp)]
          obtain ⟨ls, l, hrec⟩ := ih cs' (by omega)
          rw [hrec]
          exact ⟨[] :: ls, l, rfl⟩
      · rw [splitGo_cons_nobreak a (cs' ++ [c]) (by simpa using hba)]
        obtain ⟨ls, l, hrec⟩ := ih cs' (by omega)
        rw [hrec]
        cases ls with
        | nil => exact ⟨[], a :: l, by simp⟩
        | cons l0 ls0 =>
          refine ⟨(a :: l0) :: ls0, l, ?_⟩
          simp only [List.cons_append]

/-- A member of the last block is a member of the newline-join. -/
theorem mem_pyJoinNL_concat (c : Char) (l : Str) (hl : c ∈ l) :
    ∀ lls : List Str, c ∈ pyJoinNL (lls ++ [l]) := by
  intro lls
  induction lls with
  | nil => simpa [pyJoinNL] using hl
  | cons a t ih =>
    cases t with
    | nil =>
      show c ∈ a ++ '\n' :: l
      exact List.mem_append_right _ (List.mem_cons_of_mem _ hl)
    | cons b t' =>
      show c ∈ a ++ '\n' :: pyJoinNL ((b :: t') ++ [l])
      exact List.mem_append_right _ (List.mem_cons_of_mem _ ih)

/-- The first branch of the parser only succeeds with two non-empty
fields. -/
theorem topicDraftSplit_some_ne {raw t d : Str} (h : topicDraftSplit raw = some (t, d)) :
    t ≠ [] ∧ d ≠ [] := by
  unfold topicDraftSplit at h
  split at h
  · split at h
    · dsimp only at h
      split at h
      · rename_i hcond
        rw [Option.some_inj, Prod.mk.injEq] at h
        obtain ⟨rfl, rfl⟩ := h
        exact hcond
      · cases h
    · cases h
  · cases h

/-- Python `or` keeps a non-empty left operand. -/
theorem pyOrElse_of_ne {a : Str} (b : Str) (h : a ≠ []) : pyOrElse a b = a := by
  rw [pyOrElse, if_neg h]

/-- Evaluating `pySplitlines` on a non-empty string gives `pySplitlinesGo`. -/
theorem pySplitlines_cons (c : Char) (cs : Str) :
    pySplitlines (c :: cs) = pySplitlinesGo (c :: cs) := rfl

/-- In the multi-line branch reached from a stripped text, both the stripped
first line and the stripped newline-join of the remaining lines are
non-empty. -/
theorem stripped_branch2_fields (s : Str)
    (h2 : 2 ≤ (pySplitlines (pyStrip s)).length) :
    pyStrip ((pySplitlines (pyStrip s)).headD []) ≠ [] ∧
    pyStrip (pyJoinNL ((pySplitlines (pyStrip s)).drop 1)) ≠ [] := by
  have hraw : pyStrip s ≠ [] := by
    intro he
    rw [he] at h2
    simp [pySplitlines] at h2
  obtain ⟨c0, rest, hcons⟩ : ∃ c0 rest, pyStrip s = c0 :: rest := by
    cases hx : pyStrip s with
    | nil => exact absurd hx hraw
    | cons a t => exact ⟨a, t, rfl⟩
  have hc0 : pyIsSpace c0 = false := pyStrip_head_false hcons
  have hc0b : isLineBreak c0 = false := isLineBreak_false_of_space_false hc0
  constructor
  · obtain ⟨l, ls, hsplit⟩ := splitGo_head c0 rest hc0b
    rw [hcons, pySplitlines_cons, hsplit]
    exact pyStrip_ne_nil (List.mem_cons_self c0 l) hc0
  · obtain hnil | ⟨init, cl, hconcat⟩ := (pyStrip s).eq_nil_or_concat
    · exact absurd hnil hraw
    · rw [List.concat_eq_append] at hconcat
      have hcl : pyIsSpace cl = false := pyStrip_getLast_false hconcat
      have hclb : isLineBreak cl = false := isLineBreak_false_of_space_false hcl
      obtain ⟨ls2, l2, hsplit2⟩ := splitGo_concat cl hclb init.length init (Nat.le_refl _)
      have hsp : pySplitlines (pyStrip s) = ls2 ++ [l2 ++ [cl]] := by
        rw [hcons, pySplitlines_cons, ← hcons, hconcat]
        exact hsplit2
      rw [hsp] at h2 ⊢
      cases ls2 with
      | nil => simp at h2
      | cons a ls3 =>
        have hdrop : ((a :: ls3) ++ [l2 ++ [cl]]).drop 1 = ls3 ++ [l2 ++ [cl]] := by
          simp only [List.cons_append, List.drop_succ_cons, List.drop_zero]
        rw [hdrop]
        exact pyStrip_ne_nil
          (mem_pyJoinNL_concat cl (l2 ++ [cl]) (by simp) ls3) hcl

/-- C10: any input containing a non-whitespace character parses to a
non-empty topic and a non-empty draft, and — because the input is stripped
before line-splitting — the multi-line branch's empty-after-trim fallback
never fires: the parser agrees everywhere with the no-fallback variant. -/
theorem c10_nonempty_no_fallback (s : Str) :
    ((∃ c ∈ s, pyIsSpace c = false) →
      (parseReviewInput s).1 ≠ [] ∧ (parseReviewInput s).2 ≠ []) ∧
    parseReviewInput s = parseReviewInputNoFallback s := by
  constructor
  · rintro ⟨c, hc, hsp⟩
    have hraw : pyStrip s ≠ [] := pyStrip_ne_nil hc hsp
    cases htd : topicDraftSplit (pyStrip s) with
    | some td =>
      obtain ⟨t, d⟩ := td
      have hne := topicDraftSplit_some_ne htd
      simpa only [parseReviewInput, htd] using hne
    | none =>
      by_cases h2 : 2 ≤ (pySplitlines (pyStrip s)).length
      · obtain ⟨ht, hd⟩ := stripped_branch2_fields s h2
        simp only [parseReviewInput, htd, h2, if_true]
        rw [pyOrElse_of_ne _ ht, pyOrElse_of_ne _ hd]
        exact ⟨ht, hd⟩
      · simp only [parseReviewInput, htd, h2, if_false]
        exact ⟨hraw, hraw⟩
  · cases htd : topicDraftSplit (pyStrip s) with
    | some td => simp only [parseReviewInput, parseReviewInputNoFallback, htd]
    | none =>
      by_cases h2 : 2 ≤ (pySplitlines (pyStrip s)).length
      · obtain ⟨ht, hd⟩ := stripped_branch2_fields s h2
        simp only [parseReviewInput, parseReviewInputNoFallback, htd, h2, if_true]
        rw [pyOrElse_of_ne _ ht, pyOrElse_of_ne _ hd]
      · simp only [parseReviewInput, parseReviewInputNoFallback, htd, h2, if_false]

/-- C10 witness: at the concrete input `"hi"` the parser returns non-empty
fields and agrees with the no-fallback variant. -/
theorem c10_nonempty_no_fallback_witness :
    ((parseReviewInput (strL "hi")).1 ≠ [] ∧ (parseReviewInput (strL "hi")).2 ≠ []) ∧
    parseReviewInput (strL "hi") = parseReviewInputNoFallback (strL "hi") :=
  ⟨(c10_nonempty_no_fallback (strL "hi")).1 ⟨'h', by decide, by decide⟩,
   (c10_nonempty_no_fallback (strL "hi")).2⟩
